import Mathlib

set_option maxRecDepth 100000

/-!
Shallow embedding of the rate-limiting module of the indian-tax-telegram-bot
repository (`src/utils/rate_limiter.py`), together with proofs of the
specification's claims about it.

Modelling conventions:
* Timestamps are natural numbers (seconds).  The Python code compares floats
  with `current_time - ts > time_window`; over the reals this is equivalent to
  `ts + time_window < current_time`, which is the form used here (it is also
  correct when `ts > current_time`, where both sides are false).
* The nested `defaultdict(lambda: defaultdict(deque))` registry is modelled as
  an association list `Registry`.  A `defaultdict` access materialises missing
  keys, which `setKey` reproduces by appending absent keys at the end, exactly
  as Python dictionaries do.
* Each Python method that touches the registry is modelled as a function from
  the registry (plus the current time, which the code reads from `time.time()`)
  to its return value paired with the updated registry.
* `cleanup_old_data` has no `return` statement in the source, so its Python
  return value is `None`; the model returns the new registry paired with
  `(none : Option Nat)` for that value, and `cleanupRemovedCount` exposes the
  `len(users_to_remove)` quantity that the source only logs.
-/

namespace RateLimiter

/-- One entry of the `self.limits` table (the `description` string plays no
role in any claim and is omitted). -/
structure LimitConfig where
  max_requests : Nat
  time_window : Nat
deriving DecidableEq, Repr

/-- The `self.limits` dictionary: `text_query` allows 10 requests per 3600 s,
`document_analysis` allows 3 requests per 86400 s; anything else is absent. -/
def limits (request_type : String) : Option LimitConfig :=
  if request_type = "text_query" then some ⟨10, 3600⟩
  else if request_type = "document_analysis" then some ⟨3, 86400⟩
  else none

/-- A deque of request timestamps, oldest first (appends at the back,
`popleft` at the front). -/
abbrev Queue := List Nat

/-- The inner `defaultdict(deque)`: request type → timestamp queue. -/
abbrev UserTypes := List (String × Queue)

/-- The outer `defaultdict`: user id → per-type queues. -/
abbrev Registry := List (Nat × UserTypes)

/-- Association-list lookup (first binding wins, like a Python dict). -/
def lookupKey {α β : Type} [DecidableEq α] (k : α) : List (α × β) → Option β
  | [] => none
  | p :: rest => if p.1 = k then some p.2 else lookupKey k rest

/-- Association-list update: overwrite the first binding of `k`, or append a
new binding at the end (Python dicts append new keys in insertion order). -/
def setKey {α β : Type} [DecidableEq α] (k : α) (v : β) : List (α × β) → List (α × β)
  | [] => [(k, v)]
  | p :: rest => if p.1 = k then (k, v) :: rest else p :: setKey k v rest

/-- The queue currently stored for `(u, ty)`; absent entries read as empty,
matching the `defaultdict` default. -/
def queueOf (st : Registry) (u : Nat) (ty : String) : Queue :=
  (lookupKey ty ((lookupKey u st).getD [])).getD []

/-- The `while user_queue and current_time - user_queue[0] > time_window:
user_queue.popleft()` loop: drop entries from the front while the front entry
is strictly older than the window. -/
def prune (now time_window : Nat) : Queue → Queue
  | [] => []
  | t :: rest => if t + time_window < now then prune now time_window rest else t :: rest

/-- `RateLimiter.check_rate_limit`: fail open on unknown types; otherwise
prune, deny without appending when the pruned queue is full, else append
`now`.  Returns the boolean decision and the updated registry. -/
def check_rate_limit (st : Registry) (user_id : Nat) (request_type : String)
    (now : Nat) : Bool × Registry :=
  match limits request_type with
  | none => (true, st)
  | some cfg =>
    let userTypes := (lookupKey user_id st).getD []
    let q := prune now cfg.time_window ((lookupKey request_type userTypes).getD [])
    if cfg.max_requests ≤ q.length then
      (false, setKey user_id (setKey request_type q userTypes) st)
    else
      (true, setKey user_id (setKey request_type (q ++ [now]) userTypes) st)

/-- `RateLimiter.get_remaining_requests`: `-1` for unknown types; otherwise
`max(0, max_requests - len(pruned queue))`.  The in-place pruning of the deque
(and the `defaultdict` materialisation) is reflected in the returned
registry. -/
def get_remaining_requests (st : Registry) (user_id : Nat) (request_type : String)
    (now : Nat) : Int × Registry :=
  match limits request_type with
  | none => (-1, st)
  | some cfg =>
    let userTypes := (lookupKey user_id st).getD []
    let q := prune now cfg.time_window ((lookupKey request_type userTypes).getD [])
    (max 0 ((cfg.max_requests : Int) - (q.length : Int)),
      setKey user_id (setKey request_type q userTypes) st)

/-- `RateLimiter.get_reset_time`: `datetime.now()` for unknown types or an
empty queue, otherwise `user_queue[0] + time_window`.  Note the source does
NOT prune here; the queue is read as stored.  The `defaultdict` accesses still
materialise the `(user, type)` entry, reflected in the returned registry. -/
def get_reset_time (st : Registry) (user_id : Nat) (request_type : String)
    (now : Nat) : Nat × Registry :=
  match limits request_type with
  | none => (now, st)
  | some cfg =>
    let userTypes := (lookupKey user_id st).getD []
    let q := (lookupKey request_type userTypes).getD []
    match q with
    | [] => (now, setKey user_id (setKey request_type q userTypes) st)
    | t :: _ => (t + cfg.time_window, setKey user_id (setKey request_type q userTypes) st)

/-- The inner loop of `cleanup_old_data`: prune each queue with the
`max_age_seconds` horizon, then delete the request types whose queue became
empty. -/
def cleanupUserTypes (now max_age_seconds : Nat) (types : UserTypes) : UserTypes :=
  (types.map (fun p => (p.1, prune now max_age_seconds p.2))).filter
    (fun p => !p.2.isEmpty)

/-- `RateLimiter.cleanup_old_data`: prune every queue with horizon
`max_age_hours * 3600`, drop empty queues and users left with no queues.  The
Python method has no `return` statement, so its return value is `None`,
modelled as the second component `none`. -/
def cleanup_old_data (st : Registry) (now : Nat) (max_age_hours : Nat) :
    Registry × Option Nat :=
  let max_age_seconds := max_age_hours * 3600
  let st1 := st.map (fun p => (p.1, cleanupUserTypes now max_age_seconds p.2))
  (st1.filter (fun p => !p.2.isEmpty), none)

/-- The `len(users_to_remove)` count that `cleanup_old_data` computes and
logs (`"removed {n} inactive users"`) but does not return. -/
def cleanupRemovedCount (st : Registry) (now : Nat) (max_age_hours : Nat) : Nat :=
  let max_age_seconds := max_age_hours * 3600
  let st1 := st.map (fun p => (p.1, cleanupUserTypes now max_age_seconds p.2))
  (st1.filter (fun p => p.2.isEmpty)).length

/-- Result record of `get_global_stats`. -/
structure GlobalStats where
  total_users : Nat
  active_users : Nat
  total_requests_tracked : Nat
deriving DecidableEq, Repr

/-- `sum(1 for req_time in user_queue if current_time - req_time < 86400)`:
the number of timestamps of the queue from the last 24 hours. -/
def recentCount (now : Nat) (q : Queue) : Nat :=
  (q.filter (fun ts => now < ts + 86400)).length

/-- Total recent requests across one user's queues. -/
def userRecent (now : Nat) (types : UserTypes) : Nat :=
  (types.map (fun p => recentCount now p.2)).sum

/-- `RateLimiter.get_global_stats`: registry size, users with at least one
recent request, and the total number of recent requests tracked. -/
def get_global_stats (st : Registry) (now : Nat) : GlobalStats :=
  { total_users := st.length
    active_users := (st.filter (fun p => p.2.any (fun tq => !(recentCount now tq.2).beq 0))).length
    total_requests_tracked := (st.map (fun p => userRecent now p.2)).sum }

/-- Run a sequence of `check_rate_limit` calls (each call is a triple
`(user_id, request_type, now)`), threading the registry. -/
def runCalls : List (Nat × String × Nat) → Registry → Registry
  | [], st => st
  | (u, ty, now) :: rest, st => runCalls rest (check_rate_limit st u ty now).2

/-- The list of boolean decisions produced by a sequence of
`check_rate_limit` calls. -/
def runResults : List (Nat × String × Nat) → Registry → List Bool
  | [], _ => []
  | (u, ty, now) :: rest, st =>
    (check_rate_limit st u ty now).1 :: runResults rest (check_rate_limit st u ty now).2

/-- A registry whose user keys, and whose per-user request-type keys, are
duplicate-free — true of every registry the operations can build, and needed
to reason about the key deletions performed by `cleanup_old_data`. -/
def WellFormed (st : Registry) : Prop :=
  (st.map Prod.fst).Nodup ∧ ∀ p ∈ st, (p.2.map Prod.fst).Nodup

/-! ### Association-list lemmas -/

theorem lookupKey_setKey_self {α β : Type} [DecidableEq α] (k : α) (v : β)
    (l : List (α × β)) : lookupKey k (setKey k v l) = some v := by
  induction l with
  | nil => simp [setKey, lookupKey]
  | cons p rest ih =>
    by_cases h : p.1 = k
    · simp [setKey, h, lookupKey]
    · simp [setKey, h, lookupKey, ih]

theorem lookupKey_setKey_ne {α β : Type} [DecidableEq α] {k k' : α} (v : β)
    (l : List (α × β)) (h : k ≠ k') : lookupKey k (setKey k' v l) = lookupKey k l := by
  induction l with
  | nil => simp [setKey, lookupKey, Ne.symm h]
  | cons p rest ih =>
    by_cases hp : p.1 = k'
    · by_cases hk : p.1 = k
      · exact absurd (hk ▸ hp) h
      · simp [setKey, hp, lookupKey, Ne.symm h, hk]
    · simp [setKey, hp, lookupKey, ih]

theorem setKey_absent {α β : Type} [DecidableEq α] (k : α) (v : β)
    (l : List (α × β)) (h : lookupKey k l = none) : setKey k v l = l ++ [(k, v)] := by
  induction l with
  | nil => simp [setKey]
  | cons p rest ih =>
    by_cases hp : p.1 = k
    · simp [lookupKey, hp] at h
    · simp [lookupKey, hp] at h
      simp [setKey, hp, ih h]

/-! ### Pruning lemmas -/

theorem prune_length_le (now w : Nat) (q : Queue) : (prune now w q).length ≤ q.length := by
  induction q with
  | nil => simp [prune]
  | cons t rest ih =>
    by_cases h : t + w < now
    · simp only [prune, if_pos h]
      exact le_trans ih (Nat.le_succ _)
    · simp [prune, if_neg h]

theorem prune_nil (now w : Nat) : prune now w [] = [] := rfl

/-- Pruning with a smaller window after pruning with a larger one is the same
as pruning with the smaller window directly. -/
theorem prune_prune (now w w' : Nat) (hw : w ≤ w') (q : Queue) :
    prune now w (prune now w' q) = prune now w q := by
  induction q with
  | nil => simp [prune]
  | cons t rest ih =>
    by_cases h : t + w' < now
    · have h2 : t + w < now := lt_of_le_of_lt (Nat.add_le_add_left hw t) h
      simp only [prune, if_pos h, if_pos h2]
      exact ih
    · simp [prune, if_neg h]

/-! ### Characterisations of the operations in terms of `queueOf` -/

theorem check_fst_none {st : Registry} {u : Nat} {ty : String} {now : Nat}
    (h : limits ty = none) : check_rate_limit st u ty now = (true, st) := by
  simp [check_rate_limit, h]

theorem check_fst_known {st : Registry} {u : Nat} {ty : String} {now : Nat}
    {cfg : LimitConfig} (h : limits ty = some cfg) :
    (check_rate_limit st u ty now).1 =
      decide ((prune now cfg.time_window (queueOf st u ty)).length < cfg.max_requests) := by
  simp only [check_rate_limit, h, queueOf]
  split <;> rename_i hc <;> simp_all [Nat.not_le.mp, Nat.not_le, Nat.not_lt]

theorem check_snd_queueOf_self {st : Registry} {u : Nat} {ty : String} {now : Nat}
    {cfg : LimitConfig} (h : limits ty = some cfg) :
    queueOf (check_rate_limit st u ty now).2 u ty =
      (if cfg.max_requests ≤ (prune now cfg.time_window (queueOf st u ty)).length
       then prune now cfg.time_window (queueOf st u ty)
       else prune now cfg.time_window (queueOf st u ty) ++ [now]) := by
  simp only [check_rate_limit, h, queueOf]
  split <;> simp [queueOf, lookupKey_setKey_self]

theorem check_snd_queueOf_other {st : Registry} {u : Nat} {ty : String} {now : Nat}
    {u' : Nat} {ty' : String} (hne : u' ≠ u ∨ ty' ≠ ty) :
    queueOf (check_rate_limit st u ty now).2 u' ty' = queueOf st u' ty' := by
  cases hl : limits ty with
  | none => simp [check_rate_limit, hl]
  | some cfg =>
    rcases hne with hu | hty
    · simp only [check_rate_limit, hl]
      split <;> simp [queueOf, lookupKey_setKey_ne _ _ hu]
    · by_cases hu : u' = u
      · subst hu
        simp only [check_rate_limit, hl]
        split <;>
          simp [queueOf, lookupKey_setKey_self, lookupKey_setKey_ne _ _ hty]
      · simp only [check_rate_limit, hl]
        split <;> simp [queueOf, lookupKey_setKey_ne _ _ hu]

theorem remaining_fst_none {st : Registry} {u : Nat} {ty : String} {now : Nat}
    (h : limits ty = none) : get_remaining_requests st u ty now = (-1, st) := by
  simp [get_remaining_requests, h]

theorem remaining_fst_known {st : Registry} {u : Nat} {ty : String} {now : Nat}
    {cfg : LimitConfig} (h : limits ty = some cfg) :
    (get_remaining_requests st u ty now).1 =
      max 0 ((cfg.max_requests : Int)
        - ((prune now cfg.time_window (queueOf st u ty)).length : Int)) := by
  simp [get_remaining_requests, h, queueOf]

/-- The admission decision depends only on the queue of the addressed pair. -/
theorem check_fst_congr {st st' : Registry} {u : Nat} {ty : String} {now : Nat}
    (h : queueOf st u ty = queueOf st' u ty) :
    (check_rate_limit st u ty now).1 = (check_rate_limit st' u ty now).1 := by
  cases hl : limits ty with
  | none => rw [check_fst_none hl, check_fst_none hl]
  | some cfg => rw [check_fst_known hl, check_fst_known hl, h]

/-- The remaining-request count depends only on the queue of the addressed
pair. -/
theorem remaining_fst_congr {st st' : Registry} {u : Nat} {ty : String} {now : Nat}
    (h : queueOf st u ty = queueOf st' u ty) :
    (get_remaining_requests st u ty now).1 = (get_remaining_requests st' u ty now).1 := by
  cases hl : limits ty with
  | none => rw [remaining_fst_none hl, remaining_fst_none hl]
  | some cfg => rw [remaining_fst_known hl, remaining_fst_known hl, h]

/-! ### Runs of identical admissions (used for the §8 window scenarios) -/

theorem queueOf_nil (u : Nat) (ty : String) : queueOf [] u ty = [] := rfl

theorem prune_replicate_self (t w m : Nat) :
    prune t w (List.replicate m t) = List.replicate m t := by
  cases m with
  | zero => rfl
  | succ m =>
    rw [List.replicate_succ]
    simp [prune, Nat.not_lt.mpr (Nat.le_add_right t w)]

theorem prune_replicate_expired {t w now : Nat} (h : t + w < now) (m : Nat) :
    prune now w (List.replicate m t) = [] := by
  induction m with
  | zero => rfl
  | succ m ih =>
    rw [List.replicate_succ]
    simp [prune, h, ih]

theorem limits_text_query : limits "text_query" = some ⟨10, 3600⟩ := by decide

/-- After `n` same-time `text_query` admissions on top of a queue already
holding `m ≤ 10` copies of `t`, the queue holds `min (m + n) 10` copies. -/
theorem runCalls_replicate_tq (u t : Nat) :
    ∀ (n m : Nat) (st : Registry), queueOf st u "text_query" = List.replicate m t →
      m ≤ 10 →
      queueOf (runCalls (List.replicate n (u, "text_query", t)) st) u "text_query" =
        List.replicate (min (m + n) 10) t := by
  intro n
  induction n with
  | zero =>
    intro m st hq hm
    simpa [runCalls, Nat.min_eq_left hm] using hq
  | succ n ih =>
    intro m st hq hm
    rw [List.replicate_succ]
    simp only [runCalls]
    have hself := @check_snd_queueOf_self st u "text_query" t ⟨10, 3600⟩ limits_text_query
    rw [hq, prune_replicate_self] at hself
    simp only [List.length_replicate] at hself
    by_cases hfull : (10 : Nat) ≤ m
    · have hm10 : m = 10 := le_antisymm hm hfull
      rw [if_pos hfull] at hself
      have := ih 10 _ (hm10 ▸ hself) le_rfl
      rw [this]
      subst hm10
      congr 1
      omega
    · rw [if_neg hfull] at hself
      rw [← List.replicate_succ' m t] at hself
      have := ih (m + 1) _ hself (Nat.succ_le_of_lt (Nat.lt_of_not_le hfull))
      rw [this]
      congr 1
      omega

/-- As long as the cap is not yet reached, same-time `text_query` admissions
are all granted. -/
theorem runResults_replicate_tq (u t : Nat) :
    ∀ (n m : Nat) (st : Registry), queueOf st u "text_query" = List.replicate m t →
      m + n ≤ 10 →
      runResults (List.replicate n (u, "text_query", t)) st = List.replicate n true := by
  intro n
  induction n with
  | zero => intro m st _ _; rfl
  | succ n ih =>
    intro m st hq hm
    rw [List.replicate_succ]
    simp only [runResults]
    have hm' : m < 10 := by omega
    have hfst := @check_fst_known st u "text_query" t ⟨10, 3600⟩ limits_text_query
    rw [hq, prune_replicate_self] at hfst
    simp only [List.length_replicate] at hfst
    have hfst' : (check_rate_limit st u "text_query" t).1 = true := by
      rw [hfst]; simpa using hm'
    have hself := @check_snd_queueOf_self st u "text_query" t ⟨10, 3600⟩ limits_text_query
    rw [hq, prune_replicate_self] at hself
    simp only [List.length_replicate] at hself
    rw [if_neg (by omega : ¬ (10 : Nat) ≤ m)] at hself
    rw [← List.replicate_succ' m t] at hself
    rw [hfst', ih (m + 1) _ hself (by omega), List.replicate_succ]

/-! ### Lookup through the map-and-filter shape of `cleanup_old_data` -/

theorem lookupKey_mem {α β : Type} [DecidableEq α] {k : α} {v : β} {l : List (α × β)}
    (h : lookupKey k l = some v) : (k, v) ∈ l := by
  induction l with
  | nil => simp [lookupKey] at h
  | cons p rest ih =>
    obtain ⟨a, b⟩ := p
    by_cases hp : a = k
    · subst hp
      have hb : lookupKey a ((a, b) :: rest) = some b := by simp [lookupKey]
      rw [hb] at h
      injection h with h
      subst h
      exact List.mem_cons_self _ _
    · simp only [lookupKey, if_neg hp] at h
      exact List.mem_cons_of_mem _ (ih h)

theorem lookupKey_eq_none_of_not_mem {α β : Type} [DecidableEq α] {k : α}
    {l : List (α × β)} (h : k ∉ l.map Prod.fst) : lookupKey k l = none := by
  induction l with
  | nil => rfl
  | cons p rest ih =>
    simp only [List.map_cons, List.mem_cons, not_or] at h
    rw [lookupKey, if_neg (fun hp => h.1 hp.symm)]
    exact ih h.2

theorem lookupKey_mapFilter_none {α β γ : Type} [DecidableEq α] (f : β → γ)
    (g : γ → Bool) (k : α) :
    ∀ l : List (α × β), lookupKey k l = none →
      lookupKey k ((l.map (fun p => (p.1, f p.2))).filter (fun p => g p.2)) = none := by
  intro l
  induction l with
  | nil => intro _; rfl
  | cons p rest ih =>
    intro h
    simp only [lookupKey] at h
    by_cases hp : p.1 = k
    · rw [if_pos hp] at h; exact absurd h (by simp)
    · rw [if_neg hp] at h
      simp only [List.map_cons, List.filter_cons]
      by_cases hg : g (f p.2)
      · simpa [hg, lookupKey, hp] using ih h
      · simpa [hg] using ih h

theorem lookupKey_mapFilter {α β γ : Type} [DecidableEq α] (f : β → γ) (g : γ → Bool)
    (k : α) :
    ∀ l : List (α × β), (l.map Prod.fst).Nodup →
      lookupKey k ((l.map (fun p => (p.1, f p.2))).filter (fun p => g p.2)) =
        (lookupKey k l).bind (fun v => if g (f v) then some (f v) else none) := by
  intro l
  induction l with
  | nil => intro _; rfl
  | cons p rest ih =>
    intro hnd
    rw [List.map_cons, List.nodup_cons] at hnd
    simp only [List.map_cons, List.filter_cons]
    by_cases hp : p.1 = k
    · have hrest : lookupKey k rest = none :=
        lookupKey_eq_none_of_not_mem (hp ▸ hnd.1)
      by_cases hg : g (f p.2)
      · simp [hg, lookupKey, hp]
      · simp only [hg, if_false, Bool.false_eq_true]
        rw [lookupKey_mapFilter_none f g k rest hrest]
        simp [lookupKey, hp, hg]
    · by_cases hg : g (f p.2)
      · simp only [hg, if_true]
        rw [lookupKey, if_neg hp]
        rw [ih hnd.2]
        simp [lookupKey, hp]
      · simp only [hg, if_false, Bool.false_eq_true]
        rw [ih hnd.2]
        simp [lookupKey, hp]

/-- Under well-formedness, garbage collection turns every queue into its
`max_age_seconds`-pruned form (deleted entries read back as empty queues). -/
theorem cleanup_queueOf {st : Registry} {now maxh : Nat} (hwf : WellFormed st)
    (u : Nat) (ty : String) :
    queueOf (cleanup_old_data st now maxh).1 u ty =
      prune now (maxh * 3600) (queueOf st u ty) := by
  obtain ⟨hnd, hinner⟩ := hwf
  simp only [cleanup_old_data, queueOf]
  rw [lookupKey_mapFilter (cleanupUserTypes now (maxh * 3600)) (fun v => !v.isEmpty) u st hnd]
  cases hu : lookupKey u st with
  | none => rfl
  | some types =>
    simp only [Option.some_bind, Option.getD_some]
    by_cases hempty : (cleanupUserTypes now (maxh * 3600) types).isEmpty
    · rw [if_neg (by simp [hempty])]
      cases hty : lookupKey ty types with
      | none => rfl
      | some q =>
        have hmem : (ty, q) ∈ types := lookupKey_mem hty
        have hmap : (ty, prune now (maxh * 3600) q) ∈
            types.map (fun p => (p.1, prune now (maxh * 3600) p.2)) :=
          List.mem_map.mpr ⟨(ty, q), hmem, rfl⟩
        rw [List.isEmpty_iff] at hempty
        have hpr := List.filter_eq_nil_iff.mp hempty _ hmap
        have hpr2 : prune now (maxh * 3600) q = [] := by simpa using hpr
        exact hpr2.symm
    · rw [if_pos (by simp [hempty])]
      simp only [Option.getD_some, cleanupUserTypes]
      rw [lookupKey_mapFilter (prune now (maxh * 3600)) (fun v => !v.isEmpty) ty types
        (hinner (u, types) (lookupKey_mem hu))]
      cases hty : lookupKey ty types with
      | none => rfl
      | some q =>
        simp only [Option.some_bind]
        by_cases hq : (prune now (maxh * 3600) q).isEmpty
        · rw [if_neg (by simp [hq])]
          rw [List.isEmpty_iff] at hq
          exact hq.symm
        · rw [if_pos (by simp [hq])]
          rfl

/-- No empty ledger and no ledgerless user survives garbage collection. -/
theorem cleanup_no_empty (st : Registry) (now maxh : Nat) :
    ∀ p ∈ (cleanup_old_data st now maxh).1,
      p.2 ≠ [] ∧ ∀ tq ∈ p.2, tq.2 ≠ [] := by
  intro p hp
  simp only [cleanup_old_data] at hp
  constructor
  · simpa using List.of_mem_filter hp
  · intro tq htq
    obtain ⟨q, _, rfl⟩ := List.mem_map.mp (List.mem_of_mem_filter hp)
    simp only [cleanupUserTypes] at htq
    simpa using List.of_mem_filter htq

/-! ### Lazy materialisation and global statistics -/

/-- Reading the remaining quota for an absent user appends an entry with an
empty queue for them at the end of the registry. -/
theorem remaining_snd_absent {st : Registry} {u : Nat} {ty : String} {now : Nat}
    {cfg : LimitConfig} (h : limits ty = some cfg) (hu : lookupKey u st = none) :
    (get_remaining_requests st u ty now).2 = st ++ [(u, [(ty, [])])] := by
  simp only [get_remaining_requests, h, hu, Option.getD_none]
  rw [show lookupKey ty ([] : UserTypes) = none from rfl]
  rw [show setKey ty (prune now cfg.time_window ((none : Option Queue).getD []))
      ([] : UserTypes) = [(ty, [])] from rfl]
  exact setKey_absent u _ st hu

/-- Reading the reset time for an absent user likewise appends an entry with
an empty queue for them. -/
theorem reset_snd_absent {st : Registry} {u : Nat} {ty : String} {now : Nat}
    {cfg : LimitConfig} (h : limits ty = some cfg) (hu : lookupKey u st = none) :
    (get_reset_time st u ty now).2 = st ++ [(u, [(ty, [])])] := by
  simp only [get_reset_time, h, hu, Option.getD_none]
  rw [show lookupKey ty ([] : UserTypes) = none from rfl]
  simp only [Option.getD_none]
  exact setKey_absent u _ st hu

/-- Appending a user whose only queue is empty raises `total_users` by one and
leaves `active_users` and `total_requests_tracked` unchanged. -/
theorem get_global_stats_append_inactive (st : Registry) (m u : Nat) (ty : String) :
    get_global_stats (st ++ [(u, [(ty, [])])]) m =
      { total_users := (get_global_stats st m).total_users + 1
        active_users := (get_global_stats st m).active_users
        total_requests_tracked := (get_global_stats st m).total_requests_tracked } := by
  simp [get_global_stats, List.filter_append, recentCount, userRecent]

theorem active_le_total (st : Registry) (m : Nat) :
    (get_global_stats st m).active_users ≤ (get_global_stats st m).total_users :=
  List.length_filter_le _ _

/-- `check_fst_known` specialised to the `text_query` category. -/
theorem check_fst_tq (st : Registry) (u t : Nat) :
    (check_rate_limit st u "text_query" t).1 =
      decide ((prune t 3600 (queueOf st u "text_query")).length < 10) :=
  @check_fst_known st u "text_query" t ⟨10, 3600⟩ limits_text_query

/-- `remaining_fst_known` specialised to the `text_query` category. -/
theorem remaining_fst_tq (st : Registry) (u t : Nat) :
    (get_remaining_requests st u "text_query" t).1 =
      max 0 ((10 : Int) - ((prune t 3600 (queueOf st u "text_query")).length : Int)) :=
  @remaining_fst_known st u "text_query" t ⟨10, 3600⟩ limits_text_query

/-- `get_reset_time` computed from the stored (unpruned) queue. -/
theorem reset_fst_known {st : Registry} {u : Nat} {ty : String} {now : Nat}
    {cfg : LimitConfig} (h : limits ty = some cfg) :
    (get_reset_time st u ty now).1 =
      (match queueOf st u ty with
       | [] => now
       | t :: _ => t + cfg.time_window) := by
  simp only [get_reset_time, h, queueOf]
  cases (lookupKey ty ((lookupKey u st).getD [])).getD [] <;> rfl

/-! ### Bounded-ledger invariant -/

/-- Every recognised `(user, category)` queue respects its category's cap. -/
def Bounded (st : Registry) : Prop :=
  ∀ u ty cfg, limits ty = some cfg → (queueOf st u ty).length ≤ cfg.max_requests

theorem bounded_nil : Bounded [] := by
  intro u ty cfg _
  simp [queueOf_nil]

theorem check_preserves_bounded {st : Registry} (hB : Bounded st)
    (u : Nat) (ty : String) (now : Nat) :
    Bounded (check_rate_limit st u ty now).2 := by
  intro u2 ty2 cfg2 h2
  by_cases hpair : u2 = u ∧ ty2 = ty
  · obtain ⟨rfl, rfl⟩ := hpair
    rw [check_snd_queueOf_self h2]
    split
    · exact le_trans (prune_length_le _ _ _) (hB _ _ _ h2)
    · rename_i hlt
      simp only [List.length_append, List.length_singleton]
      omega
  · rw [check_snd_queueOf_other (by tauto)]
    exact hB _ _ _ h2

theorem runCalls_preserves_bounded :
    ∀ (calls : List (Nat × String × Nat)) (st : Registry), Bounded st →
      Bounded (runCalls calls st)
  | [], _, h => h
  | (u, ty, now) :: rest, _, h =>
    runCalls_preserves_bounded rest _ (check_preserves_bounded h u ty now)

/-- The 100-user `document_analysis` scenario of the spec's §8 garbage
collection property. -/
def calls100 : List (Nat × String × Nat) :=
  (List.range 100).map (fun u => (u, "document_analysis", 0))

/-! ### The claims -/

/-- Claim C1: for every user and recognised category, after any sequence of
`check_rate_limit` calls the ledger for that pair holds at most
`max_requests` timestamps; a denied call appends nothing, so 15 same-time
`text_query` admissions leave exactly 10 recorded timestamps. -/
theorem C1_ledger_never_exceeds_cap (calls : List (Nat × String × Nat))
    (u w t : Nat) (ty : String) {cfg : LimitConfig} (h : limits ty = some cfg) :
    (queueOf (runCalls calls []) u ty).length ≤ cfg.max_requests ∧
    queueOf (runCalls (List.replicate 15 (w, "text_query", t)) []) w "text_query" =
      List.replicate 10 t := by
  constructor
  · exact runCalls_preserves_bounded calls [] bounded_nil u ty cfg h
  · have hq := runCalls_replicate_tq w t 15 0 [] (queueOf_nil w "text_query") (by omega)
    have hmin : min (0 + 15) 10 = 10 := by norm_num
    rw [hmin] at hq
    exact hq

/-- Witness for C1 at a concrete instance. -/
theorem C1_witness :
    (queueOf (runCalls [] []) 1 "text_query").length ≤ (10 : Nat) ∧
    queueOf (runCalls (List.replicate 15 (1, "text_query", 0)) []) 1 "text_query" =
      List.replicate 10 0 :=
  C1_ledger_never_exceeds_cap [] 1 1 0 "text_query" limits_text_query

/-- Claim C2 as stated is false: after 10 same-time `text_query` admissions
at `t = 0` (all granted) and an 11th denial, the remaining count at
`t + 3601` is 10, not 1, because all ten timestamps leave the window
simultaneously. -/
theorem C2_counterexample :
    runResults (List.replicate 10 (1, "text_query", 0)) [] = List.replicate 10 true ∧
    (check_rate_limit (runCalls (List.replicate 10 (1, "text_query", 0)) [])
      1 "text_query" 0).1 = false ∧
    (get_remaining_requests (runCalls (List.replicate 10 (1, "text_query", 0)) [])
      1 "text_query" 3601).1 = 10 ∧
    (10 : Int) ≠ 1 := by
  refine ⟨by decide, by decide, by decide, by decide⟩

/-- Claim C2 (amended): after 10 admissions all granted at time `t`, the 11th
admission at `t` is denied, and at `t + 3600 + 1` the remaining count is 10
(the whole quota is free again, in particular at least one slot). -/
theorem C2_window_correctness (u t : Nat) :
    runResults (List.replicate 10 (u, "text_query", t)) [] = List.replicate 10 true ∧
    (check_rate_limit (runCalls (List.replicate 10 (u, "text_query", t)) [])
      u "text_query" t).1 = false ∧
    (get_remaining_requests (runCalls (List.replicate 10 (u, "text_query", t)) [])
      u "text_query" (t + 3601)).1 = 10 := by
  have hq := runCalls_replicate_tq u t 10 0 [] (queueOf_nil u "text_query") (by omega)
  have hmin : min (0 + 10) 10 = 10 := by norm_num
  rw [hmin] at hq
  refine ⟨?_, ?_, ?_⟩
  · exact runResults_replicate_tq u t 10 0 [] (queueOf_nil u "text_query") (by omega)
  · rw [check_fst_tq, hq, prune_replicate_self]
    simp
  · rw [remaining_fst_tq, hq, prune_replicate_expired (by omega) 10]
    norm_num

/-- Claim C3: `get_remaining_requests` returns `max_requests` minus the
pruned ledger length, clamped at 0, for a recognised category, and the
sentinel `-1` for an unrecognised one. -/
theorem C3_remaining_spec (st : Registry) (u : Nat) (ty : String) (now : Nat) :
    (∀ cfg, limits ty = some cfg →
      (get_remaining_requests st u ty now).1 =
        max 0 ((cfg.max_requests : Int)
          - ((prune now cfg.time_window (queueOf st u ty)).length : Int))) ∧
    (limits ty = none → (get_remaining_requests st u ty now).1 = -1) := by
  constructor
  · intro cfg h
    exact remaining_fst_known h
  · intro h
    rw [remaining_fst_none h]

/-- Witness for C3 at concrete inputs. -/
theorem C3_witness :
    (get_remaining_requests [(1, [("text_query", [5])])] 1 "text_query" 5).1 = 9 ∧
    (get_remaining_requests [] 2 "mystery" 0).1 = -1 := by
  constructor
  · have h := (C3_remaining_spec [(1, [("text_query", [5])])] 1 "text_query" 5).1
      ⟨10, 3600⟩ (by decide)
    rw [h]
    decide
  · exact (C3_remaining_spec [] 2 "mystery" 0).2 (by decide)

/-- Claim C4 as stated is false: with a single request at time 0 and
`now = 10000`, the pruned `text_query` ledger is empty, so the claim demands
`get_reset_time = now = 10000`, but the code does not prune and returns
`0 + 3600 = 3600`. -/
theorem C4_counterexample :
    prune 10000 3600
      (queueOf (check_rate_limit [] 1 "text_query" 0).2 1 "text_query") = [] ∧
    (get_reset_time (check_rate_limit [] 1 "text_query" 0).2 1 "text_query" 10000).1
      = 3600 ∧
    (3600 : Nat) ≠ 10000 := by
  refine ⟨by decide, by decide, by decide⟩

/-- Claim C4 (amended): `get_reset_time` does not prune.  It returns `now`
when the stored (unpruned) ledger is empty, and otherwise the stored oldest
timestamp plus the window — a value that may already lie in the past. -/
theorem C4_reset_time_unpruned (st : Registry) (u : Nat) (ty : String) (now : Nat)
    {cfg : LimitConfig} (h : limits ty = some cfg) :
    (queueOf st u ty = [] → (get_reset_time st u ty now).1 = now) ∧
    (∀ t rest, queueOf st u ty = t :: rest →
      (get_reset_time st u ty now).1 = t + cfg.time_window) := by
  constructor
  · intro hq
    rw [reset_fst_known h, hq]
  · intro t rest hq
    rw [reset_fst_known h, hq]

/-- Witness for C4 (amended) at concrete inputs. -/
theorem C4_witness :
    (get_reset_time [] 1 "text_query" 7).1 = 7 ∧
    (get_reset_time [(1, [("text_query", [5])])] 1 "text_query" 7).1 = 5 + 3600 := by
  constructor
  · exact (C4_reset_time_unpruned [] 1 "text_query" 7 limits_text_query).1 rfl
  · exact (C4_reset_time_unpruned [(1, [("text_query", [5])])] 1 "text_query" 7
      limits_text_query).2 5 [] rfl

/-- Claim C5 as stated is false on its return value: in the 100-user
`document_analysis` scenario the cleanup does remove all 100 users (the
computed removal count is 100) but the Python method has no `return`
statement, so it returns `None`, not 100. -/
theorem C5_counterexample :
    (runCalls calls100 []).length = 100 ∧
    (cleanup_old_data (runCalls calls100 []) 86401 24).1 = [] ∧
    cleanupRemovedCount (runCalls calls100 []) 86401 24 = 100 ∧
    (cleanup_old_data (runCalls calls100 []) 86401 24).2 = none ∧
    (none : Option Nat) ≠ some 100 := by
  refine ⟨by rfl, by rfl, by rfl, by rfl, by decide⟩

/-- Claim C5 (amended): `cleanup_old_data` prunes every ledger with the
`maxAge` horizon, deletes empty ledgers and ledgerless users, and computes
and logs — but does not return — the count of removed users (its return
value is `None`); in the 100-user scenario all 100 users are removed and the
computed count is 100. -/
theorem C5_cleanup_behavior (st : Registry) (now maxh : Nat) (hwf : WellFormed st)
    (u : Nat) (ty : String) :
    queueOf (cleanup_old_data st now maxh).1 u ty =
      prune now (maxh * 3600) (queueOf st u ty) ∧
    (∀ p ∈ (cleanup_old_data st now maxh).1, p.2 ≠ [] ∧ ∀ tq ∈ p.2, tq.2 ≠ []) ∧
    (cleanup_old_data st now maxh).2 = none ∧
    (cleanup_old_data (runCalls calls100 []) 86401 24).1 = [] ∧
    cleanupRemovedCount (runCalls calls100 []) 86401 24 = 100 := by
  refine ⟨cleanup_queueOf hwf u ty, cleanup_no_empty st now maxh, rfl, by rfl, by rfl⟩

/-- Witness for C5 (amended) at a concrete registry. -/
theorem C5_witness :
    queueOf (cleanup_old_data [(1, [("text_query", [0])])] 90000 24).1 1 "text_query" =
      prune 90000 (24 * 3600) (queueOf [(1, [("text_query", [0])])] 1 "text_query") ∧
    (∀ p ∈ (cleanup_old_data [(1, [("text_query", [0])])] 90000 24).1,
      p.2 ≠ [] ∧ ∀ tq ∈ p.2, tq.2 ≠ []) ∧
    (cleanup_old_data [(1, [("text_query", [0])])] 90000 24).2 = none ∧
    (cleanup_old_data (runCalls calls100 []) 86401 24).1 = [] ∧
    cleanupRemovedCount (runCalls calls100 []) 86401 24 = 100 :=
  C5_cleanup_behavior [(1, [("text_query", [0])])] 90000 24 ⟨by decide, by decide⟩ 1 "text_query"

/-- Claim C6: for an unrecognised category every `check_rate_limit` call
returns `true`, unboundedly, and the registry is never created or modified
for it. -/
theorem C6_unknown_fail_open (ty : String) (h1 : ty ≠ "text_query")
    (h2 : ty ≠ "document_analysis") :
    (∀ (st : Registry) (u now : Nat), check_rate_limit st u ty now = (true, st)) ∧
    (∀ (calls : List (Nat × Nat)) (st : Registry),
      runCalls (calls.map (fun c => (c.1, ty, c.2))) st = st ∧
      runResults (calls.map (fun c => (c.1, ty, c.2))) st =
        List.replicate calls.length true) := by
  have hl : limits ty = none := by simp [limits, h1, h2]
  constructor
  · intro st u now
    exact check_fst_none hl
  · intro calls
    induction calls with
    | nil => intro st; exact ⟨rfl, rfl⟩
    | cons c rest ih =>
      intro st
      simp only [List.map_cons, runCalls, runResults, check_fst_none hl,
        List.length_cons, List.replicate_succ]
      exact ⟨(ih st).1, by rw [(ih st).2]⟩

/-- Witness for C6 at a concrete unknown category. -/
theorem C6_witness :
    check_rate_limit [] 1 "unknown_type" 5 = (true, []) :=
  (C6_unknown_fail_open "unknown_type" (by decide) (by decide)).1 [] 1 5

/-- Claim C7: a `check_rate_limit` call for one `(user, category)` pair
leaves every other pair's ledger unchanged, hence also its remaining count
and its admission decision. -/
theorem C7_independence (st : Registry) (u u2 : Nat) (ty ty2 : String)
    (now m : Nat) (hne : u2 ≠ u ∨ ty2 ≠ ty) :
    queueOf (check_rate_limit st u ty now).2 u2 ty2 = queueOf st u2 ty2 ∧
    (get_remaining_requests (check_rate_limit st u ty now).2 u2 ty2 m).1 =
      (get_remaining_requests st u2 ty2 m).1 ∧
    (check_rate_limit (check_rate_limit st u ty now).2 u2 ty2 m).1 =
      (check_rate_limit st u2 ty2 m).1 := by
  have hq := @check_snd_queueOf_other st u ty now u2 ty2 hne
  exact ⟨hq, remaining_fst_congr hq, check_fst_congr hq⟩

/-- Witness for C7 at concrete distinct pairs. -/
theorem C7_witness :
    queueOf (check_rate_limit [] 1 "text_query" 0).2 2 "document_analysis" =
      queueOf [] 2 "document_analysis" ∧
    (get_remaining_requests (check_rate_limit [] 1 "text_query" 0).2
      2 "document_analysis" 0).1 =
      (get_remaining_requests [] 2 "document_analysis" 0).1 ∧
    (check_rate_limit (check_rate_limit [] 1 "text_query" 0).2
      2 "document_analysis" 0).1 =
      (check_rate_limit [] 2 "document_analysis" 0).1 :=
  C7_independence [] 1 2 "text_query" "document_analysis" 0 0 (Or.inl (by decide))

/-- Claim C9: when the garbage-collection horizon is at least the category's
window, running `cleanup_old_data` first changes neither the admission
decision nor the remaining count (on well-formed registries). -/
theorem C9_cleanup_transparent (st : Registry) (u : Nat) (ty : String)
    (now maxh : Nat) {cfg : LimitConfig} (hwf : WellFormed st)
    (h : limits ty = some cfg) (hage : cfg.time_window ≤ maxh * 3600) :
    (check_rate_limit (cleanup_old_data st now maxh).1 u ty now).1 =
      (check_rate_limit st u ty now).1 ∧
    (get_remaining_requests (cleanup_old_data st now maxh).1 u ty now).1 =
      (get_remaining_requests st u ty now).1 := by
  have hq := @cleanup_queueOf st now maxh hwf u ty
  constructor
  · rw [check_fst_known h, check_fst_known h, hq,
      prune_prune now cfg.time_window (maxh * 3600) hage]
  · rw [remaining_fst_known h, remaining_fst_known h, hq,
      prune_prune now cfg.time_window (maxh * 3600) hage]

/-- Witness for C9 at a concrete registry. -/
theorem C9_witness :
    (check_rate_limit (cleanup_old_data [(1, [("text_query", [100])])] 200 24).1
      1 "text_query" 200).1 =
      (check_rate_limit [(1, [("text_query", [100])])] 1 "text_query" 200).1 ∧
    (get_remaining_requests (cleanup_old_data [(1, [("text_query", [100])])] 200 24).1
      1 "text_query" 200).1 =
      (get_remaining_requests [(1, [("text_query", [100])])] 1 "text_query" 200).1 :=
  C9_cleanup_transparent [(1, [("text_query", [100])])] 1 "text_query" 200 24
    ⟨by decide, by decide⟩ limits_text_query (by decide)

/-- Claim C10: reading the remaining quota (or the reset time) of an absent
user materialises an empty ledger entry for them, so `total_users` grows by
one while `active_users` does not, and `total_users` then strictly exceeds
`active_users` even though no quota was consumed. -/
theorem C10_read_materializes (st : Registry) (u : Nat) (ty : String)
    (now m : Nat) {cfg : LimitConfig} (h : limits ty = some cfg)
    (hu : lookupKey u st = none) :
    (get_remaining_requests st u ty now).2 = st ++ [(u, [(ty, [])])] ∧
    (get_reset_time st u ty now).2 = st ++ [(u, [(ty, [])])] ∧
    (get_global_stats (get_remaining_requests st u ty now).2 m).total_users =
      (get_global_stats st m).total_users + 1 ∧
    (get_global_stats (get_remaining_requests st u ty now).2 m).active_users =
      (get_global_stats st m).active_users ∧
    (get_global_stats (get_remaining_requests st u ty now).2 m).active_users <
      (get_global_stats (get_remaining_requests st u ty now).2 m).total_users := by
  have h2 := @remaining_snd_absent st u ty now cfg h hu
  have h3 := @reset_snd_absent st u ty now cfg h hu
  have hst := get_global_stats_append_inactive st m u ty
  refine ⟨h2, h3, ?_, ?_, ?_⟩
  · rw [h2, hst]
  · rw [h2, hst]
  · rw [h2, hst]
    exact Nat.lt_succ_of_le (active_le_total st m)

/-- Witness for C10 at the empty registry. -/
theorem C10_witness :
    (get_remaining_requests [] 1 "text_query" 0).2 = [] ++ [(1, [("text_query", [])])] ∧
    (get_reset_time [] 1 "text_query" 0).2 = [] ++ [(1, [("text_query", [])])] ∧
    (get_global_stats (get_remaining_requests [] 1 "text_query" 0).2 0).total_users =
      (get_global_stats [] 0).total_users + 1 ∧
    (get_global_stats (get_remaining_requests [] 1 "text_query" 0).2 0).active_users =
      (get_global_stats [] 0).active_users ∧
    (get_global_stats (get_remaining_requests [] 1 "text_query" 0).2 0).active_users <
      (get_global_stats (get_remaining_requests [] 1 "text_query" 0).2 0).total_users :=
  C10_read_materializes [] 1 "text_query" 0 0 limits_text_query rfl

end RateLimiter
